import Mathlib

/-!
Verification development for the fdf configuration-file reader of a DFT
I/O library (src/sisl/io/siesta/fdf.py).  The Python code is shallowly
embedded: strings are Lean strings, Python floats are exact rationals
(plus inf/nan markers), file handles are explicit line lists, exceptions
are an explicit error type, and the stream-oriented label scanner is a
fuel-indexed step function.
-/

/-! ## Character and string utilities (Python `str` operations) -/

/-- Python `str.lower()` (ASCII, as used for fdf labels). -/
def lowerStr (s : String) : String :=
  String.mk (s.toList.map Char.toLower)

/-- `fdf.py` line 165-166: `tolabel`, the label normalisation — lower-case and
remove every occurrence of the characters underscore, dash and dot. -/
def tolabel (s : String) : String :=
  String.mk ((s.toList.map Char.toLower).filter
    (fun c => !(c = '_' || c = '-' || c = '.')))

/-- Python `str.strip()`: drop leading and trailing whitespace. -/
def pyStrip (s : String) : String :=
  String.mk (((s.toList.dropWhile Char.isWhitespace).reverse.dropWhile
    Char.isWhitespace).reverse)

/-- Helper for Python `str.split()` without arguments. -/
def pySplitAux : List Char → List Char → List String
  | [], acc => if acc.isEmpty then [] else [String.mk acc.reverse]
  | c :: cs, acc =>
    if c.isWhitespace then
      if acc.isEmpty then pySplitAux cs []
      else String.mk acc.reverse :: pySplitAux cs []
    else pySplitAux cs (c :: acc)

/-- Python `str.split()` without arguments: whitespace-delimited tokens,
empty tokens dropped. -/
def pySplit (s : String) : List String := pySplitAux s.toList []

/-- `fdf.py` line 234/239: `line.split('#')[0]` — the part of a line before
the first hash character. -/
def beforeHash (s : String) : String :=
  String.mk (s.toList.takeWhile (fun c => c ≠ '#'))

/-- Python `p in s` on the character level (substring test). -/
def containsAux (pat : List Char) : List Char → Bool
  | [] => pat.isEmpty
  | c :: cs => pat.isPrefixOf (c :: cs) || containsAux pat cs

/-- Python substring test `pat in s`. -/
def strContains (s pat : String) : Bool := containsAux pat.toList s.toList

/-- Prefix test on character lists. -/
def startsAux : List Char → List Char → Bool
  | [], _ => true
  | _ :: _, [] => false
  | p :: ps, c :: cs => p == c && startsAux ps cs

/-- Python `s.startswith(p)`. -/
def strStartsWith (s p : String) : Bool := startsAux p.toList s.toList

/-! ## Kernel-reducible exact rational arithmetic

The standard `Rat` operations are `@[irreducible]`, so witnesses could not be
evaluated by `decide`.  These helpers compute the same rationals through
`mkRat` (which reduces); bridge lemmas identify them with the standard
operations. -/

/-- Build a rational from an integer numerator and natural denominator. -/
def qmk (n : ℤ) (d : ℕ) : ℚ := mkRat n d

/-- Reducible rational addition. -/
def qadd (a b : ℚ) : ℚ := mkRat (a.num * b.den + b.num * a.den) (a.den * b.den)

/-- Reducible rational multiplication. -/
def qmul (a b : ℚ) : ℚ := mkRat (a.num * b.num) (a.den * b.den)

/-- Reducible rational negation. -/
def qneg (a : ℚ) : ℚ := mkRat (-a.num) a.den

/-- Reducible rational inverse (0 maps to 0, as for `Rat.inv`). -/
def qinv (a : ℚ) : ℚ :=
  if 0 ≤ a.num then mkRat (a.den : ℤ) a.num.toNat
  else mkRat (-(a.den : ℤ)) (-a.num).toNat

/-- Reducible rational division. -/
def qdiv (a b : ℚ) : ℚ := qmul a (qinv b)

/-- Reducible rational power. -/
def qpow (a : ℚ) : ℕ → ℚ
  | 0 => qmk 1 1
  | n + 1 => qmul a (qpow a n)

/-- Reducible strict comparison. -/
def qlt (a b : ℚ) : Bool := decide (a.num * (b.den : ℤ) < b.num * (a.den : ℤ))

theorem qmk_eq (n : ℤ) (d : ℕ) : qmk n d = (n : ℚ) / (d : ℚ) := by
  simp [qmk, Rat.mkRat_eq_div]

theorem qadd_eq (a b : ℚ) : qadd a b = a + b := by
  rw [qadd, Rat.mkRat_eq_div]
  conv_rhs => rw [← Rat.num_div_den a, ← Rat.num_div_den b]
  rw [div_add_div _ _ (by positivity) (by positivity)]
  push_cast
  ring_nf

theorem qmul_eq (a b : ℚ) : qmul a b = a * b := by
  rw [qmul, Rat.mkRat_eq_div]
  conv_rhs => rw [← Rat.num_div_den a, ← Rat.num_div_den b]
  rw [div_mul_div_comm]
  push_cast
  ring_nf

theorem qneg_eq (a : ℚ) : qneg a = -a := by
  rw [qneg, Rat.mkRat_eq_div]
  conv_rhs => rw [← Rat.num_div_den a]
  push_cast
  rw [neg_div]

theorem qinv_eq (a : ℚ) : qinv a = a⁻¹ := by
  have key : a⁻¹ = (a.den : ℚ) / (a.num : ℚ) := by
    conv_lhs => rw [← Rat.num_div_den a]
    rw [inv_div]
  rw [key, qinv]
  rcases le_or_lt 0 a.num with h | h
  · rw [if_pos h, Rat.mkRat_eq_div]
    have h2 : ((a.num.toNat : ℕ) : ℚ) = (a.num : ℚ) := by
      exact_mod_cast congrArg (fun z : ℤ => (z : ℚ)) (Int.toNat_of_nonneg h)
    rw [h2]
    push_cast
    rfl
  · rw [if_neg (not_le.mpr h), Rat.mkRat_eq_div]
    have h2 : (((-a.num).toNat : ℕ) : ℚ) = ((-a.num : ℤ) : ℚ) := by
      exact_mod_cast congrArg (fun z : ℤ => (z : ℚ))
        (Int.toNat_of_nonneg (by omega : (0:ℤ) ≤ -a.num))
    rw [h2]
    push_cast
    rw [neg_div_neg_eq]

theorem qdiv_eq (a b : ℚ) : qdiv a b = a / b := by
  rw [qdiv, qmul_eq, qinv_eq, div_eq_mul_inv]

theorem qpow_eq (a : ℚ) (n : ℕ) : qpow a n = a ^ n := by
  induction n with
  | zero => simp [qpow, qmk]
  | succ n ih => rw [qpow, qmul_eq, ih, pow_succ]; ring

theorem qlt_eq (a b : ℚ) : qlt a b = true ↔ a < b := by
  rw [qlt, decide_eq_true_iff]
  conv_rhs => rw [← Rat.num_div_den a, ← Rat.num_div_den b]
  rw [div_lt_div_iff₀ (by positivity) (by positivity)]
  constructor <;> intro h <;> exact_mod_cast h

/-! ## Python numeric literal parsing (`float(..)` / `int(..)`) -/

/-- A Python float produced by `float(str)`: a finite value (kept exact as a
rational, the standard shallow-embedding choice for the finite doubles that
appear here), or an infinity / nan marker. -/
inductive PyF where
  | fin (q : ℚ)
  | pinf
  | ninf
  | nan
deriving DecidableEq

/-- Rest of a Python `digitpart`: digits with single underscores allowed
only between digits. -/
def digitRest : List Char → Bool
  | [] => true
  | '_' :: rest =>
    match rest with
    | d :: ds => d.isDigit && digitRest ds
    | [] => false
  | c :: cs => c.isDigit && digitRest cs

/-- Python grammar `digitpart ::= digit (["_"] digit)*`. -/
def digitpart : List Char → Bool
  | [] => false
  | c :: cs => c.isDigit && digitRest cs

/-- Strip underscores from a digit sequence. -/
def stripUnderscores (l : List Char) : List Char := l.filter (fun c => c ≠ '_')

/-- Decimal value of a digit list. -/
def digitsVal (l : List Char) : ℕ :=
  l.foldl (fun n c => n * 10 + (c.toNat - 48)) 0

/-- Optional leading sign; returns (isNegative, rest). -/
def stripSign : List Char → Bool × List Char
  | '-' :: cs => (true, cs)
  | '+' :: cs => (false, cs)
  | l => (false, l)

/-- Split a character list at the first occurrence of `c` (the occurrence is
dropped); `none` when `c` does not occur. -/
def spanNe (c : Char) (l : List Char) : List Char × Option (List Char) :=
  match l.span (fun x => x ≠ c) with
  | (a, []) => (a, none)
  | (a, _ :: b) => (a, some b)

/-- The mantissa part of a Python float literal:
`digitpart | [digitpart] "." [digitpart]` with at least one digit. -/
def mantissaVal (l : List Char) : Option ℚ :=
  match spanNe '.' l with
  | (a, none) =>
    if digitpart a then some (qmk (digitsVal (stripUnderscores a)) 1) else none
  | (a, some b) =>
    if b.contains '.' then none
    else if (a.isEmpty || digitpart a) && (b.isEmpty || digitpart b)
        && !(a.isEmpty && b.isEmpty) then
      let bd := stripUnderscores b
      some (qadd (qmk (digitsVal (stripUnderscores a)) 1)
        (qdiv (qmk (digitsVal bd) 1) (qpow (qmk 10 1) bd.length)))
    else none

/-- Python `float(s)` on a whitespace-free token: case-insensitive, accepts
optional sign, `inf`/`infinity`/`nan`, and `mantissa [e [sign] digitpart]`.
Returns `none` exactly when Python raises `ValueError`. -/
def pyFloat (s : String) : Option PyF :=
  let l := s.toList.map Char.toLower
  let sl := stripSign l
  let neg := sl.1
  let body := sl.2
  if body = "inf".toList || body = "infinity".toList then
    some (if neg then .ninf else .pinf)
  else if body = "nan".toList then some .nan
  else
    match spanNe 'e' body with
    | (m, none) =>
      (mantissaVal m).map (fun q => .fin (if neg then qneg q else q))
    | (m, some ex) =>
      let se := stripSign ex
      if digitpart se.2 then
        (mantissaVal m).map (fun q =>
          let e := digitsVal (stripUnderscores se.2)
          let q := qmul q (if se.1 then qinv (qpow (qmk 10 1) e)
            else qpow (qmk 10 1) e)
          .fin (if neg then qneg q else q))
      else none

/-- `float(s)` succeeds. -/
def pyFloatOK (s : String) : Bool := (pyFloat s).isSome

/-- Python `int(s)` on a whitespace-free token: optional sign and a
`digitpart`.  Returns `none` exactly when Python raises `ValueError`. -/
def pyInt (s : String) : Option ℤ :=
  let sl := stripSign s.toList
  if digitpart sl.2 then
    let n := digitsVal (stripUnderscores sl.2)
    some (if sl.1 then -(n : ℤ) else (n : ℤ))
  else none

/-- Multiply a Python float by a positive rational conversion factor. -/
def pfMul (f : PyF) (c : ℚ) : PyF :=
  match f with
  | .fin q => .fin (qmul q c)
  | .pinf => if qlt (qmk 0 1) c then .pinf else if qlt c (qmk 0 1) then .ninf else .nan
  | .ninf => if qlt (qmk 0 1) c then .ninf else if qlt c (qmk 0 1) then .pinf else .nan
  | .nan => .nan

example : pyFloat "7" = some (.fin (qmk 7 1)) := by decide
example : pyFloat "1.5" = some (.fin (qmk 3 2)) := by decide
example : pyFloat "1e5" = some (.fin (qmk 100000 1)) := by decide
example : pyFloat "-.5" = some (.fin (qmk (-1) 2)) := by decide
example : pyFloat "1_0.2_5e-1" = some (.fin (qmk 41 40)) := by decide
example : pyFloat "INF" = some .pinf := by decide
example : pyFloat "nan." = none := by decide
example : pyFloat "hello" = none := by decide
example : pyFloat "1e" = none := by decide
example : pyFloat "_1" = none := by decide
example : pyInt "7" = some 7 := by decide
example : pyInt "-12" = some (-12) := by decide
example : pyInt "1e5" = none := by decide
example : pyInt "7.0" = none := by decide
example : pySplit "  a b\tc " = ["a", "b", "c"] := by decide
example : tolabel "System_Label." = "systemlabel" := by decide
example : beforeHash "ab # c" = "ab " := by decide
example : strContains "fractional" "ang" = false := by decide
example : strContains "notscaledcartesianang" "ang" = true := by decide

/-! ## The fdf label store (`fdf.py` lines 83-245)

A document is the list of lines of the primary file (without trailing
newlines) together with an association list from file names to line lists for
every file reachable through `%include` or a pipe marker.  The stack of open
file handles of `fdfSileSiesta` becomes an explicit state: the remaining
lines of the active file and the remaining lines of each stacked parent. -/

/-- File system: file name to file lines. -/
abbrev FS := List (String × List String)

/-- Look up the lines of a file; `none` when the file does not exist. -/
def lookupFS (fs : FS) (name : String) : Option (List String) :=
  (fs.find? (fun e => e.1 == name)).map (fun e => e.2)

/-- Raw value returned by `_read_label`: the remainder of a matched scalar
line, or the list of lines of a matched block. -/
inductive FdfRaw where
  | rawStr (s : String)
  | rawBlock (ls : List String)
deriving DecidableEq

/-- Python exceptions that the embedded code can raise. -/
inductive PyErr where
  | valueError
  | typeError
  | indexError
  | fileNotFoundError
  | nameError
  | attributeError
  | sileError
  | sislFCRange
  | sislNonConsecutive
  | sislTiling
  | notImplementedError
deriving DecidableEq

/-- Outcome of an embedded Python computation: a value, a raised exception,
or divergence (detected as fuel exhaustion of the step-indexed model). -/
inductive Res (α : Type) where
  | ok (a : α)
  | exn (e : PyErr)
  | diverge
deriving DecidableEq

/-- Scanner state: remaining lines of the active file handle and the
remaining lines of each stacked parent handle (`self._parent_fh`). -/
structure FdfState where
  active : List String
  parents : List (List String)
deriving DecidableEq

/-- Comment line test of the base `readline` (modelled from the spec: the
base class `Sile.readline` is not under src/; the spec says scanning skips
"lines whose first non-space character is one of a fixed comment-marker set",
and `fdf.py` line 86 fixes that set to `#`, `!`, `;`). -/
def isCommentLine (l : String) : Bool :=
  match (pyStrip l).toList with
  | [] => false
  | c :: _ => c = '#' || c = '!' || c = ';'

/-- `self.readline()`: return the next non-comment line of the active handle,
or `none` at end of file (Python returns the empty string there). -/
def readlineSt (st : FdfState) : Option String × FdfState :=
  match st.active.dropWhile isCommentLine with
  | [] => (none, ⟨[], st.parents⟩)
  | l :: rest => (some l, ⟨rest, st.parents⟩)

/-- `fdf.py` lines 104-109 `_popfile`: close the active handle and reinstate
the most recently stacked parent; `none` when the stack is empty. -/
def popSt (st : FdfState) : Option FdfState :=
  match st.parents with
  | [] => none
  | p :: ps => some ⟨p, ps⟩

/-- `fdf.py` lines 111-118 `_seek`: pop (and close) every stacked handle,
then seek the primary handle back to the start. -/
def seekAllAux (primary : List String) : List (List String) → FdfState
  | [] => ⟨primary, []⟩
  | _ :: ps => seekAllAux primary ps

/-- The catch-all reset routine applied to a scanner state. -/
def seekAll (primary : List String) (st : FdfState) : FdfState :=
  seekAllAux primary st.parents

/-- `fdf.py` lines 169-173 `valid_line`: a line is kept when it is non-blank
and its first non-space character is not a comment marker. -/
def valid_line (l : String) : Bool :=
  let ls := pyStrip l
  match ls.toList with
  | [] => false
  | c :: _ => !(c = '#' || c = '!' || c = ';')

/-- The `%endblock` test of the block scan (`fdf.py` line 220): the whole
stripped line is normalised by `tolabel` and tested for the prefix
`%endblock`. -/
def closerP (l : String) : Bool := strStartsWith (tolabel l) "%endblock"

/-- `fdf.py` lines 216-224: the block-body scan.  Reads lines (through the
comment-skipping `readline`), strips them, stops when a line normalises to a
`%endblock` prefix, and collects the non-empty lines in between.  At end of
file `readline` returns the empty string forever, so the Python loop spins;
the model charges one fuel unit per iteration and returns `none` on
exhaustion. -/
def blockScan : ℕ → FdfState → List String → Option (List String × FdfState)
  | 0, _, _ => none
  | fuel + 1, st, acc =>
    let r := readlineSt st
    let l := pyStrip (r.1.getD "")
    if closerP l then some (acc.reverse, r.2)
    else blockScan fuel r.2 (if l.length > 0 then l :: acc else acc)

/-- Result of `process_line` on one line. -/
inductive PR where
  | found (v : FdfRaw) (st : FdfState)
  | cont (st : FdfState)
  | perr (e : PyErr) (st : FdfState)
  | pout (st : FdfState)
deriving DecidableEq

/-- `fdf.py` lines 175-231 `process_line`, for a label whose normalised form
is `labell`.  `recPipe` performs the recursive lookup used by the
scalar-pipe case (line 202), which opens a fresh sile on the referenced file
and calls `_read_label` with the same label. -/
def process_line (fs : FS) (labell : String)
    (recPipe : List String → Res (Option FdfRaw)) (fuel : ℕ)
    (l : String) (st : FdfState) : PR :=
  let ls := pySplit l
  if ls.isEmpty then .cont st
  else
    let lsl := ls.map tolabel
    if lsl.contains "<" then
      let idx := lsl.indexOf "<"
      if lsl.headD "" == "%block" && lsl.getD 1 "" == labell then
        match ls.get? 3 with
        | none => .perr .indexError st
        | some fname =>
          match lookupFS fs fname with
          | none => .perr .fileNotFoundError st
          | some lines =>
            .found (.rawBlock ((lines.filter valid_line).map pyStrip)) st
      else if (lsl.take idx).contains labell then
        match ls.get? (idx + 1) with
        | none => .perr .indexError st
        | some fname =>
          match lookupFS fs fname with
          | none => .perr .fileNotFoundError st
          | some lines =>
            match recPipe lines with
            | .ok (some v) => .found v st
            | .ok none => .cont st
            | .exn e => .perr e st
            | .diverge => .pout st
      else .cont st
    else if lsl.headD "" == labell then
      .found (.rawStr (pyStrip (String.intercalate " " (ls.drop 1)))) st
    else if lsl.headD "" == "%block" then
      if ls.length < 2 then .perr .indexError st
      else if lsl.getD 1 "" == labell then
        match blockScan fuel st [] with
        | none => .pout st
        | some r => .found (.rawBlock r.1) r.2
      else .cont st
    else if lsl.headD "" == "%include" then
      match ls.get? 1 with
      | none => .perr .indexError st
      | some fname =>
        match lookupFS fs fname with
        | none => .cont st
        | some lines => .cont ⟨lines, st.active :: st.parents⟩
    else .cont st

/-- `fdf.py` lines 233-245: the main scan loop of `_read_label`.  Each
iteration reads one line (taking the part before the first `#`), processes
it, pops the file stack at end of file, and returns `None` when the stack is
exhausted.  One fuel unit is charged per iteration. -/
def read_label_go : ℕ → FS → String → FdfState → Res (Option FdfRaw) × FdfState
  | 0, _, _, st => (.diverge, st)
  | fuel + 1, fs, labell, st =>
    match readlineSt st with
    | (none, st1) =>
      match popSt st1 with
      | none => (.ok none, st1)
      | some st2 => read_label_go fuel fs labell st2
    | (some l, st1) =>
      match process_line fs labell
          (fun lines => (read_label_go fuel fs labell ⟨lines, []⟩).1) fuel
          (beforeHash l) st1 with
      | .found v st2 => (.ok (some v), st2)
      | .cont st2 => read_label_go fuel fs labell st2
      | .perr e st2 => (.exn e, st2)
      | .pout st2 => (.diverge, st2)

/-- `_read_label` started from an arbitrary handle state: the catch-all
reset (`self._seek()`, line 164) runs first, then the scan loop with the
normalised label. -/
def read_label_st (fuel : ℕ) (fs : FS) (primary : List String) (label : String)
    (st : FdfState) : Res (Option FdfRaw) × FdfState :=
  read_label_go fuel fs (tolabel label) (seekAll primary st)

/-- `fdf.py` lines 153-245 `_read_label` on a freshly opened sile. -/
def read_label (fuel : ℕ) (fs : FS) (primary : List String) (label : String) :
    Res (Option FdfRaw) :=
  (read_label_st fuel fs primary label ⟨primary, []⟩).1

example :
    read_label 20 [] ["# a comment", "Foo 1 2", "Label 7 # trail", "Label 8"]
      "Label" = .ok (some (.rawStr "7")) := by decide
example :
    read_label 20 [] ["%block Sub", " x 1", "", "%endblock Sub", "Tail 3"]
      "SUB" = .ok (some (.rawBlock ["x 1"])) := by decide
example :
    read_label 20 [] ["%block Sub", " x 1"] "sub" = .diverge := by decide
example :
    read_label 20 [("inc.fdf", ["Label 9"])] ["%include inc.fdf"] "La-bel" =
      .ok (some (.rawStr "9")) := by decide
example :
    read_label 20 [("o.fdf", ["Label 4"])] ["Label Other < o.fdf"] "label" =
      .ok (some (.rawStr "4")) := by decide
example :
    read_label 20 [("b.txt", ["1 2", "# no", "  3 4  "])]
      ["%block BB < b.txt"] "bb" = .ok (some (.rawBlock ["1 2", "3 4"])) := by
  decide
example : read_label 20 [] ["Other 1"] "Label" = .ok none := by decide

/-! ## Type coercion (`fdf.py` lines 37-39 and 247-293) -/

/-- `fdf.py` line 37: `_LOGICAL_TRUE`. -/
def LOGICAL_TRUE : List String := [".true.", "true", "yes", "y", "t"]

/-- `fdf.py` line 38: `_LOGICAL_FALSE`. -/
def LOGICAL_FALSE : List String := [".false.", "false", "no", "n", "f"]

/-- `fdf.py` line 39: `_LOGICAL`. -/
def LOGICAL : List String := LOGICAL_FALSE ++ LOGICAL_TRUE

/-- The classification returned by `_type`: `none` / block `'B'` / array
`'a'` / logical `'b'` / real `'r'` / integer `'i'` / physical `'p'` /
opaque name `'n'`.  (The numpy-array input case `'a'` cannot arise from
`_read_label` and has no constructor in `FdfRaw`.) -/
inductive FKind where
  | tNone
  | tBlock
  | tBool
  | tReal
  | tInt
  | tPhys
  | tName
deriving DecidableEq

/-- `fdf.py` lines 247-293 `_type`: classify a raw value. -/
def fdf_type : Option FdfRaw → FKind
  | none => .tNone
  | some (.rawBlock _) => .tBlock
  | some (.rawStr value) =>
    match pySplit value with
    | [v] =>
      let fdf := lowerStr v
      if LOGICAL.contains fdf then .tBool
      else if pyFloatOK fdf then
        (if fdf.toList.contains '.' then .tReal else .tInt)
      else .tName
    | [a, _] => if pyFloatOK a then .tPhys else .tName
    | _ => .tName

example : fdf_type (some (.rawStr "7")) = .tInt := by decide
example : fdf_type (some (.rawStr "7.5")) = .tReal := by decide
example : fdf_type (some (.rawStr "1e5")) = .tInt := by decide
example : fdf_type (some (.rawStr "TRUE")) = .tBool := by decide
example : fdf_type (some (.rawStr "0.5 Ry")) = .tPhys := by decide
example : fdf_type (some (.rawStr "hello world etc")) = .tName := by decide

/-! ## Unit handling

Modelled from the spec: the unit module (`sisl.unit.siesta`, providing
`unit_group`, `unit_default` and `unit_convert`) is code of this repository
that is not under src/.  Per the spec it maps a unit name to its group and a
numeric conversion factor, with a canonical default unit per group; only the
groups and units exercised by the claims are tabulated, and the numeric
factors are representative exact decimals. -/

/-- Modelled from the spec: the Ry to eV conversion factor of the external
unit table (exact numeric value irrelevant to the claims). -/
def Ry2eV : ℚ := qmk 13605693009 1000000000

/-- Modelled from the spec: the Bohr to Ang conversion factor of the
external unit table. -/
def Bohr2Ang : ℚ := qmk 529177210 1000000000

/-- Modelled from the spec: unit table rows (group, unit name, factor to the
group base unit). -/
def unitTable : List (String × String × ℚ) :=
  [("length", "Ang", qmk 1 1),
   ("length", "Bohr", Bohr2Ang),
   ("energy", "eV", qmk 1 1),
   ("energy", "Ry", Ry2eV)]

/-- Modelled from the spec: `unit_group` — the group of a unit name;
`none` models the lookup error raised on an unknown unit. -/
def unit_group (u : String) : Option String :=
  (unitTable.find? (fun e => e.2.1 == u)).map (fun e => e.1)

/-- Modelled from the spec: the factor of a unit relative to its group
base. -/
def unitFactor (u : String) : Option ℚ :=
  (unitTable.find? (fun e => e.2.1 == u)).map (fun e => e.2.2)

/-- Modelled from the spec: `unit_default` — the canonical default unit of a
group. -/
def unit_default (g : String) : Option String :=
  match g with
  | "length" => some "Ang"
  | "energy" => some "eV"
  | _ => none

/-- Modelled from the spec: `unit_convert fr to` — the multiplicative factor
taking a value in `fr` to a value in `to`; an exception for unknown units or
a group mismatch. -/
def unit_convert (ufrom uto : String) : Res ℚ :=
  match unitFactor ufrom, unitFactor uto with
  | some fa, some fb =>
    if unit_group ufrom = unit_group uto then .ok (qdiv fa fb)
    else .exn .valueError
  | _, _ => .exn .valueError

example : unit_convert "Ry" "eV" = .ok Ry2eV := by decide
example : unit_convert "eV" "eV" = .ok (qmk 1 1) := by decide

/-! ## `get` (`fdf.py` lines 307-390) -/

/-- Python values returned by `fdf.get` (and usable as its `default`
argument).  `pnone` is Python `None`. -/
inductive PyVal where
  | pnone
  | pstr (s : String)
  | plist (ls : List String)
  | pbool (b : Bool)
  | pint (z : ℤ)
  | pfloat (f : PyF)
  | ppair (f : PyF) (u : String)
deriving DecidableEq

/-- The cast `type(default)(value)` applied in the `'r'`/`'i'` branches of
`get` (lines 361-371): the concrete type of the supplied default determines
the conversion of the stored string.  A tuple default would produce a tuple
of characters, which `PyVal` does not represent; that case (never exercised
by sisl) is modelled as a type error. -/
def pyCast (d : PyVal) (v : String) : Res PyVal :=
  match d with
  | .pnone => .exn .typeError
  | .pbool _ => .ok (.pbool (v ≠ ""))
  | .pint _ =>
    match pyInt v with
    | some z => .ok (.pint z)
    | none => .exn .valueError
  | .pfloat _ =>
    match pyFloat v with
    | some f => .ok (.pfloat f)
    | none => .exn .valueError
  | .pstr _ => .ok (.pstr v)
  | .plist _ => .ok (.plist (v.toList.map String.singleton))
  | .ppair _ _ => .exn .typeError

/-- The `'p'` (physical value) branch of `get` (lines 373-385); the label
argument of `get` only feeds the error message there and is dropped. -/
def getPhysical (value : String) (unit : Option String)
    (withUnit : Bool) : Res PyVal :=
  match pySplit value with
  | [a, u] =>
    match pyFloat a with
    | none => .exn .valueError
    | some f =>
      if withUnit then .ok (.ppair f u)
      else
        match unit with
        | none =>
          match unit_group u with
          | none => .exn .valueError
          | some g =>
            match unit_default g with
            | none => .exn .valueError
            | some d =>
              match unit_convert u d with
              | .ok c => .ok (.pfloat (pfMul f c))
              | .exn e => .exn e
              | .diverge => .diverge
        | some u2 =>
          match unit_group u with
          | none => .exn .valueError
          | some g1 =>
            match unit_group u2 with
            | none => .exn .valueError
            | some g2 =>
              if g1 ≠ g2 then .exn .valueError
              else
                match unit_convert u u2 with
                | .ok c => .ok (.pfloat (pfMul f c))
                | .exn e => .exn e
                | .diverge => .diverge
  | _ => .exn .indexError

/-- `fdf.py` lines 307-390 `get`: look the label up, classify the raw value
and convert it.  The `label` argument is threaded to `getPhysical` only for
the error message of the unit-mismatch raise. -/
def fdf_get (fuel : ℕ) (fs : FS) (primary : List String) (label : String)
    (unit : Option String) (default : PyVal) (withUnit : Bool) : Res PyVal :=
  match read_label fuel fs primary label with
  | .diverge => .diverge
  | .exn e => .exn e
  | .ok none => .ok default
  | .ok (some (.rawBlock ls)) => .ok (.plist ls)
  | .ok (some (.rawStr v)) =>
    match fdf_type (some (.rawStr v)) with
    | .tReal =>
      if default = .pnone then
        match pyFloat v with
        | some f => .ok (.pfloat f)
        | none => .exn .valueError
      else pyCast default v
    | .tInt =>
      if default = .pnone then
        match pyInt v with
        | some z => .ok (.pint z)
        | none => .exn .valueError
      else pyCast default v
    | .tPhys => getPhysical v unit withUnit
    | .tBool => .ok (.pbool (LOGICAL_TRUE.contains (lowerStr v)))
    | _ => .ok (.pstr v)

example :
    fdf_get 20 [] ["Label 7"] "Label" none (.pint 5) false = .ok (.pint 7) := by
  decide
example :
    fdf_get 20 [] ["Other 1"] "Label" none (.pint 5) false = .ok (.pint 5) := by
  decide
example :
    fdf_get 20 [] ["En 1.5 Ry"] "En" (some "eV") .pnone false =
      .ok (.pfloat (.fin (qmul (qmk 3 2) Ry2eV))) := by decide
example :
    fdf_get 20 [] ["En 1.5 Ry"] "En" none .pnone true =
      .ok (.ppair (.fin (qmk 3 2)) "Ry") := by decide
example :
    fdf_get 20 [] ["En 1.5 Ry"] "En" (some "Ang") .pnone false =
      .exn .valueError := by decide
example :
    fdf_get 20 [] ["En 1.5 Ry"] "En" none .pnone false =
      .ok (.pfloat (.fin (qmul (qmk 3 2) Ry2eV))) := by decide
example :
    fdf_get 20 [] ["Flag yes"] "Flag" none .pnone false = .ok (.pbool true) := by
  decide
example :
    fdf_get 20 [] ["Name hello there"] "Name" none (.pint 5) false =
      .ok (.pstr "hello there") := by decide

/-! ## Resolution pipeline (`fdf.py` lines 604-664, 1320-1363)

Every `read_X` entry point runs the same loop: iterate the `order` list,
dispatch each source identifier to a per-source reader, and return the first
result that is not `None`.  The loop is embedded once as `resolveOrder` and
instantiated for `read_hamiltonian`.  Companion-format readers (TSHS / nc /
HSX siles) are external collaborators; their result for an existing file is
an abstract content token supplied by the environment. -/

/-- The per-quantity source loop (e.g. lines 1332-1337): first non-`None`
result wins; exceptions propagate; `None` when every source declines. -/
def resolveOrder {α : Type} (g : String → Res (Option α)) :
    List String → Res (Option α)
  | [] => .ok none
  | s :: rest =>
    match g s with
    | .ok (some v) => .ok (some v)
    | .ok none => resolveOrder g rest
    | .exn e => .exn e
    | .diverge => .diverge

/-- Companion-file environment: which files exist next to the fdf file, and
the (abstract) value the corresponding companion reader produces — for the
Hamiltonian sources this includes the `_SpGeom_replace_geom` post-processing
of lines 1351-1352 and 1360-1362.  File names are kept relative: the
`_tofile` base-directory join of line 93-95 prefixes every name with the
same directory and is elided. -/
structure Companion where
  files : List String
  content : String → String

/-- `getattr(self, '_r_hamiltonian_' + f.lower())` dispatch: the suffix of
the companion file for each known source identifier; `none` models the
`AttributeError` on an unknown identifier. -/
def hamSuffix (f : String) : Option String :=
  match lowerStr f with
  | "nc" => some ".nc"
  | "tshs" => some ".TSHS"
  | "hsx" => some ".HSX"
  | _ => none

/-- `self.get('SystemLabel', default='siesta')` as used by every companion
filename derivation (e.g. line 1348). -/
def systemLabelOf (fuel : ℕ) (fs : FS) (primary : List String) : Res String :=
  match fdf_get fuel fs primary "SystemLabel" none (.pstr "siesta") false with
  | .ok (.pstr s) => .ok s
  | .ok _ => .exn .typeError
  | .exn e => .exn e
  | .diverge => .diverge

/-- One Hamiltonian source reader (`_r_hamiltonian_nc` / `_tshs` / `_hsx`,
lines 1339-1363): derive `<SystemLabel><suffix>`, return `None` when that
file does not exist, else delegate to the companion reader. -/
def r_hamiltonian_src (fuel : ℕ) (fs : FS) (primary : List String)
    (env : Companion) (src : String) : Res (Option String) :=
  match hamSuffix src with
  | none => .exn .attributeError
  | some suf =>
    match systemLabelOf fuel fs primary with
    | .ok lbl =>
      let f := lbl ++ suf
      if env.files.contains f then .ok (some (env.content f)) else .ok none
    | .exn e => .exn e
    | .diverge => .diverge

/-- `fdf.py` lines 1320-1337 `read_hamiltonian` with an explicit `order`
(the default order is `["nc", "TSHS", "HSX"]`). -/
def read_hamiltonian (fuel : ℕ) (fs : FS) (primary : List String)
    (env : Companion) (order : List String) : Res (Option String) :=
  resolveOrder (r_hamiltonian_src fuel fs primary env) order

example :
    read_hamiltonian 20 [] ["SystemLabel sys1"]
      ⟨["sys1.nc"], fun _ => "H"⟩ ["TSHS"] = .ok none := by decide
example :
    read_hamiltonian 20 [] ["SystemLabel sys1"]
      ⟨["sys1.TSHS", "sys1.nc"], fun f => f⟩ ["TSHS", "nc", "TSHS"] =
      .ok (some "sys1.TSHS") := by decide
example :
    read_hamiltonian 20 [] [] ⟨["siesta.HSX"], fun f => f⟩ ["nc", "TSHS", "HSX"] =
      .ok (some "siesta.HSX") := by decide

/-! ## Geometry / matrix reconciliation (`fdf.py` lines 563-602) -/

/-- An atom of the shallow geometry model: atomic number, orbital set
(each orbital represented by its range), mass and tag. -/
structure PAtom where
  Z : ℤ
  orbs : List ℚ
  mass : ℚ
  tag : String
deriving DecidableEq

/-- `Atom.no`: the number of orbitals. -/
def PAtom.no (a : PAtom) : ℕ := a.orbs.length

/-- A geometry reduced to its per-site atom list (positions play no role in
`_SpGeom_replace_geom`). -/
structure PGeom where
  atoms : List PAtom
deriving DecidableEq

/-- `Geometry.na`. -/
def PGeom.na (g : PGeom) : ℕ := g.atoms.length

/-- `Geometry.no`: total orbital count. -/
def PGeom.no (g : PGeom) : ℕ := (g.atoms.map PAtom.no).sum

/-- A sparse quantity reduced to its attached geometry. -/
structure SpGeomM where
  geom : PGeom
deriving DecidableEq

/-- `geom.atom.iter(True)`: the distinct species of a geometry in first
occurrence order, each with the list of site indices carrying it. -/
def speciesOf (g : PGeom) : List (PAtom × List ℕ) :=
  (g.atoms.foldl (fun acc a => if acc.contains a then acc else acc ++ [a]) []).map
    (fun a => (a, (List.range g.atoms.length).filter
      (fun i => g.atoms.get? i == some a)))

/-- The per-species replacement loop of `_SpGeom_replace_geom`
(lines 592-601): for each species of the incoming geometry, compare orbital
counts against the matrix's atom at the first index, substitute the matrix's
orbital set when they disagree, and overwrite the matrix's atoms at all the
indices.  numpy raises `IndexError` when an index is out of range
(`Atoms.reduce` only compacts the species table and does not change the
per-site list). -/
def replaceLoop (sp : List PAtom) : List (PAtom × List ℕ) → Res (List PAtom)
  | [] => .ok sp
  | (a, idx) :: rest =>
    if idx.isEmpty then replaceLoop sp rest
    else
      match idx.head? with
      | none => replaceLoop sp rest
      | some i0 =>
        match sp.get? i0 with
        | none => .exn .indexError
        | some sa =>
          let a2 : PAtom := if sa.no ≠ a.no then ⟨a.Z, sa.orbs, a.mass, a.tag⟩ else a
          if idx.all (fun i => i < sp.length) then
            replaceLoop (idx.foldl (fun l i => l.set i a2) sp) rest
          else .exn .indexError

/-- `fdf.py` lines 563-602 `_SpGeom_replace_geom`.  Returns the updated
sparse quantity, the boolean return value of the Python function, and
whether the recoverable warning of lines 587-588 was emitted. -/
def SpGeom_replace_geom (sp : SpGeomM) (g : PGeom) :
    Res (SpGeomM × Bool × Bool) :=
  if sp.geom.na ≠ g.na ∧ sp.geom.no = g.no then .ok (⟨g⟩, true, false)
  else
    let warned := decide (sp.geom.na ≠ g.na)
    let no_no := decide (sp.geom.no = g.no)
    match replaceLoop sp.geom.atoms (speciesOf g) with
    | .ok atoms => .ok (⟨⟨atoms⟩⟩, no_no, warned)
    | .exn e => .exn e
    | .diverge => .diverge

example :
    SpGeom_replace_geom ⟨⟨[⟨6, [qmk 1 1], qmk 12 1, "C"⟩]⟩⟩
      ⟨[⟨1, [qmk 1 1], qmk 1 1, "H"⟩]⟩ =
      .ok (⟨⟨[⟨1, [qmk 1 1], qmk 1 1, "H"⟩]⟩⟩, true, false) := by decide

/-! ## Geometry read from the fdf file (`fdf.py` lines 990-1067) -/

/-- A 3-vector of exact coordinates. -/
structure Vec3 where
  x : ℚ
  y : ℚ
  z : ℚ
deriving DecidableEq

/-- Scalar multiple. -/
def vsmul (c : ℚ) (v : Vec3) : Vec3 := ⟨qmul c v.x, qmul c v.y, qmul c v.z⟩

/-- Vector sum. -/
def vadd (a b : Vec3) : Vec3 := ⟨qadd a.x b.x, qadd a.y b.y, qadd a.z b.z⟩

/-- The zero vector (`np.zeros([3])`). -/
def vzero : Vec3 := ⟨qmk 0 1, qmk 0 1, qmk 0 1⟩

/-- A cell: three lattice-vector rows. -/
structure Mat3 where
  r0 : Vec3
  r1 : Vec3
  r2 : Vec3
deriving DecidableEq

/-- `np.dot(xyz, sc.cell)` for one row of fractional coordinates: the
linear combination of the cell rows. -/
def dotCell (f : Vec3) (c : Mat3) : Vec3 :=
  vadd (vsmul f.x c.r0) (vadd (vsmul f.y c.r1) (vsmul f.z c.r2))

/-- `fdf.py` lines 998-1013: select the coordinate scale factor and the
fractional flag from the (already lowered) `AtomicCoordinatesFormat` value
by fuzzy substring matching, in source order.  No branch matching leaves
Python's local `s` unbound, a `NameError` at line 1021/1053; this is the
`none` case. -/
def coordScale (lc : String) (latConstAng : ℚ) : Option (ℚ × Bool) :=
  if strContains lc "ang" || strContains lc "notscaledcartesianang" then
    some (qmk 1 1, false)
  else if strContains lc "bohr" || strContains lc "notscaledcartesianbohr" then
    some (Bohr2Ang, false)
  else if strContains lc "scaledcartesian" then some (latConstAng, false)
  else if strContains lc "fractional" || strContains lc "scaledbylatticevectors" then
    some (qmk 1 1, true)
  else none

/-- `fdf.py` lines 990-1054, the coordinate part of `_r_geometry_fdf`,
parameterised by the values the surrounding `self.get` calls produce:
`cell` is the already-scaled cell from `read_supercell(order=['fdf'])`;
`acf` the `AtomicCoordinatesFormat` value (default `'Bohr'`); `latConstAng`
the `LatticeConstant` in Ang; `originLine` the first line of an
`AtomicCoordinatesOrigin` block, if present, `originKw` the `origin` keyword
(default true); `atms` the parsed `(xyz, species)` rows of the
`AtomicCoordinatesAndAtomicSpecies` block; `naOpt` the `NumberOfAtoms`
value.  Returns the final Cartesian positions with species indices. -/
def r_geometry_fdf_xyz (cell : Mat3) (acf : String) (latConstAng : ℚ)
    (originLine : Option Vec3) (originKw : Bool) (atms : List (Vec3 × ℤ))
    (naOpt : Option ℕ) : Res (List (Vec3 × ℤ)) :=
  let lc := lowerStr acf
  match coordScale lc latConstAng with
  | none => .exn .nameError
  | some sf =>
    let s := sf.1
    let isFrac := sf.2
    let origo : Vec3 :=
      match originLine with
      | some ov => if originKw then vsmul s ov else vzero
      | none => vzero
    let na := naOpt.getD atms.length
    let atms2 := if na < atms.length then atms.take na else atms
    if na > atms.length then .exn .sileError
    else if na = 0 ∧ ¬(na < atms.length) then .exn .sileError
    else
      .ok (atms2.map (fun p =>
        (vadd (vsmul s (if isFrac then dotCell p.1 cell else p.1)) origo, p.2)))

example :
    r_geometry_fdf_xyz ⟨⟨qmk 2 1, qmk 0 1, qmk 0 1⟩, ⟨qmk 0 1, qmk 2 1, qmk 0 1⟩,
        ⟨qmk 0 1, qmk 0 1, qmk 2 1⟩⟩ "Fractional" (qmk 1 1) none true
      [(⟨qmk 1 2, qmk 1 2, qmk 0 1⟩, 0)] none =
      .ok [(⟨qmk 1 1, qmk 1 1, qmk 0 1⟩, 0)] := by decide
example :
    r_geometry_fdf_xyz ⟨⟨qmk 2 1, qmk 0 1, qmk 0 1⟩, ⟨qmk 0 1, qmk 2 1, qmk 0 1⟩,
        ⟨qmk 0 1, qmk 0 1, qmk 2 1⟩⟩ "Fractional" (qmk 1 1)
      (some ⟨qmk 1 1, qmk 1 1, qmk 1 1⟩) true
      [(⟨qmk 1 2, qmk 1 2, qmk 0 1⟩, 0)] none =
      .ok [(⟨qmk 2 1, qmk 2 1, qmk 1 1⟩, 0)] := by decide

/-! ## Hessian read (`fdf.py` lines 795-928) -/

/-- Inputs of `_r_hessian_fc` relevant to the supercell branch:
`fcOutcome` abstracts the result of `_r_force_constant_fc` (lines 773-793,
file I/O and numpy array handling); `fcFirst`/`fcLast` are the
`MD.FCFirst`/`MD.FCLast` values (line 861); `supercell` the keyword of line
871; `tilingMismatch` abstracts the geometric proximity test of lines
916-921 (`np.allclose` of the reconstructed tiling), whose outcome cannot
change the failure result. -/
structure HessianFcIn where
  fcOutcome : Res (Option Unit)
  fcFirst : ℤ
  fcLast : ℤ
  supercell : ℤ × ℤ × ℤ
  tilingMismatch : Bool

/-- `_a.arangei(first - 1, last)` of line 861: the displaced-atom indices. -/
def fcAtomsOf (first last : ℤ) : List ℤ :=
  (List.range (last - (first - 1)).toNat).map (fun k => first - 1 + k)

/-- `np.any(np.diff(fc_atoms) != 1)` of line 903. -/
def nonConsecutive (l : List ℤ) : Bool :=
  (l.zip l.tail).any (fun p => p.2 - p.1 ≠ 1)

/-- `fdf.py` lines 821-928 `_r_hessian_fc`, with the `supercell == (1,1,1)`
population loop abstracted to an opaque successful Hessian (the claims only
concern the other branch): on a non-unit supercell the code raises at line
904 (non-consecutive displaced atoms), line 922 (tiling could not be
reconstructed) or line 926 (`NotImplementedError`), and `return H` at line
928 is unreachable. -/
def r_hessian_fc (inp : HessianFcIn) : Res (Option Unit) :=
  match inp.fcOutcome with
  | .exn e => .exn e
  | .diverge => .diverge
  | .ok none => .ok none
  | .ok (some _) =>
    if inp.supercell = (1, 1, 1) then .ok (some ())
    else
      if nonConsecutive (fcAtomsOf inp.fcFirst inp.fcLast) then
        .exn .sislNonConsecutive
      else if inp.tilingMismatch then .exn .sislTiling
      else .exn .notImplementedError

/-- `fdf.py` lines 795-819 `read_hessian`: the standard source loop with
default order `['FC']`; the only defined source is `fc`. -/
def read_hessian (inp : HessianFcIn) (order : List String) : Res (Option Unit) :=
  resolveOrder
    (fun src => if lowerStr src == "fc" then r_hessian_fc inp
      else .exn .attributeError) order

example :
    read_hessian ⟨.ok (some ()), 1, 2, (2, 1, 1), false⟩ ["FC"] =
      .exn .notImplementedError := by decide
example :
    read_hessian ⟨.ok (some ()), 1, 2, (1, 1, 1), false⟩ ["FC"] =
      .ok (some ()) := by decide
example :
    read_hessian ⟨.ok none, 1, 2, (2, 1, 1), false⟩ ["FC"] = .ok none := by
  decide

/-! ## Claim C1 -/

/-- C1: every resolution entry point returns the result of the first source
in the `order` list that yields a non-`None` value, regardless of how many
further sources follow or repeat; in particular `read_hamiltonian` with
`order=['TSHS']` returns `None` when the `<SystemLabel>.TSHS` file does not
exist, without consulting any other source. -/
theorem claim_C1 :
    (∀ (α : Type) (g : String → Res (Option α)) (pre post : List String)
      (s : String) (v : α),
      (∀ x ∈ pre, g x = .ok none) → g s = .ok (some v) →
      resolveOrder g (pre ++ s :: post) = .ok (some v)) ∧
    (∀ (fuel : ℕ) (fs : FS) (primary : List String) (env : Companion)
      (lbl : String),
      systemLabelOf fuel fs primary = .ok lbl →
      env.files.contains (lbl ++ ".TSHS") = false →
      read_hamiltonian fuel fs primary env ["TSHS"] = .ok none) := by
  constructor
  · intro α g pre post s v hpre hs
    induction pre with
    | nil => simp [resolveOrder, hs]
    | cons a as ih =>
      have ha : g a = .ok none := hpre a (by simp)
      simp only [List.cons_append, resolveOrder, ha]
      exact ih (fun x hx => hpre x (by simp [hx]))
  · intro fuel fs primary env lbl hlbl hfile
    have hsuf : hamSuffix "TSHS" = some ".TSHS" := by decide
    unfold read_hamiltonian resolveOrder r_hamiltonian_src
    have hfile2 : (lbl ++ ".TSHS") ∉ env.files := by
      simpa using hfile
    rw [hsuf, hlbl]
    simp [resolveOrder, hfile2]

/-- Witness for C1 at concrete inputs. -/
theorem claim_C1_witness :
    resolveOrder
      (fun s => if s == "A" then Res.ok (some 1) else .ok (none : Option ℕ))
      ["B", "A", "C", "A"] = .ok (some 1) ∧
    read_hamiltonian 20 [] ["SystemLabel sys1"] ⟨["sys1.nc"], fun _ => "H"⟩
      ["TSHS"] = .ok none := by
  constructor
  · exact claim_C1.1 ℕ _ ["B"] ["C", "A"] "A" 1 (by decide) (by decide)
  · exact claim_C1.2 20 [] ["SystemLabel sys1"] ⟨["sys1.nc"], fun _ => "H"⟩
      "sys1" (by decide) (by decide)

/-! ## Claim C7 -/

/-- C7: label lookup (and `get` built on it) is invariant under case changes
and insertion/removal of underscore, dash and dot in the label, for scalar
and block labels alike: two labels with the same `tolabel` normalisation
resolve identically against the same document. -/
theorem claim_C7 (fuel : ℕ) (fs : FS) (primary : List String) (l1 l2 : String)
    (u : Option String) (d : PyVal) (w : Bool) (h : tolabel l1 = tolabel l2) :
    read_label fuel fs primary l1 = read_label fuel fs primary l2 ∧
    fdf_get fuel fs primary l1 u d w = fdf_get fuel fs primary l2 u d w := by
  have hr : read_label fuel fs primary l1 = read_label fuel fs primary l2 := by
    unfold read_label read_label_st
    rw [h]
  refine ⟨hr, ?_⟩
  unfold fdf_get
  rw [hr]

/-- Witness for C7: a scalar label and a block label, each under two
spellings. -/
theorem claim_C7_witness :
    read_label 20 [] ["SystemLabel sys1"] "System_Label" =
      read_label 20 [] ["SystemLabel sys1"] "SYSTEM.label" ∧
    fdf_get 20 [] ["%block A-B", "1 2", "%endblock"] "a_b" none .pnone false =
      fdf_get 20 [] ["%block A-B", "1 2", "%endblock"] "AB" none .pnone false := by
  constructor
  · exact (claim_C7 20 [] ["SystemLabel sys1"] "System_Label" "SYSTEM.label"
      none .pnone false (by decide)).1
  · exact (claim_C7 20 [] ["%block A-B", "1 2", "%endblock"] "a_b" "AB"
      none .pnone false (by decide)).2

/-! ## Claim C8 -/

/-- C8: `read_hessian` with a supercell different from `(1,1,1)` never
returns a Hessian: when the force-constant read succeeds, the supercell
branch raises the non-consecutive-atoms error, the tiling-reconstruction
error, or the final not-supported error; it fails closed on all inputs. -/
theorem claim_C8 (inp : HessianFcIn) (h : inp.supercell ≠ (1, 1, 1)) :
    (∀ x, r_hessian_fc inp ≠ .ok (some x)) ∧
    (inp.fcOutcome = .ok (some ()) →
      r_hessian_fc inp = .exn .sislNonConsecutive ∨
      r_hessian_fc inp = .exn .sislTiling ∨
      r_hessian_fc inp = .exn .notImplementedError) ∧
    (∀ x, read_hessian inp ["FC"] ≠ .ok (some x)) := by
  have key : ∀ x, r_hessian_fc inp ≠ .ok (some x) := by
    intro x
    unfold r_hessian_fc
    split
    · simp
    · simp
    · simp
    · rw [if_neg h]
      split_ifs <;> simp
  have key2 : inp.fcOutcome = .ok (some ()) →
      r_hessian_fc inp = .exn .sislNonConsecutive ∨
      r_hessian_fc inp = .exn .sislTiling ∨
      r_hessian_fc inp = .exn .notImplementedError := by
    intro hfc
    unfold r_hessian_fc
    simp only [hfc]
    rw [if_neg h]
    split_ifs <;> simp
  refine ⟨key, key2, ?_⟩
  intro x
  unfold read_hessian resolveOrder
  simp only [show (lowerStr "FC" == "fc") = true from by decide, if_true]
  split
  · next v heq => exact absurd heq (key v)
  · simp [resolveOrder]
  · simp
  · simp

/-- Witness for C8 at a concrete replicated-cell input. -/
theorem claim_C8_witness :
    r_hessian_fc ⟨.ok (some ()), 1, 2, (2, 1, 1), false⟩ ≠ .ok (some ()) ∧
    read_hessian ⟨.ok (some ()), 1, 2, (2, 1, 1), false⟩ ["FC"] ≠
      .ok (some ()) := by
  have h := claim_C8 ⟨.ok (some ()), 1, 2, (2, 1, 1), false⟩ (by decide)
  exact ⟨h.1 (), h.2.2 ()⟩

/-! ## Claim C4 -/

/-- C4: for a stored value classified Integer or Real, `get` with a
non-`None` default returns the stored string cast by the concrete type of
the default (`type(default)(value)`), and when the label is absent `get`
returns the default unchanged. -/
theorem claim_C4 (fuel : ℕ) (fs : FS) (primary : List String)
    (label v : String) (d : PyVal) :
    (read_label fuel fs primary label = .ok (some (.rawStr v)) →
      d ≠ .pnone →
      (fdf_type (some (.rawStr v)) = .tInt ∨
        fdf_type (some (.rawStr v)) = .tReal) →
      fdf_get fuel fs primary label none d false = pyCast d v) ∧
    (read_label fuel fs primary label = .ok none →
      fdf_get fuel fs primary label none d false = .ok d) := by
  constructor
  · intro hread hd ht
    unfold fdf_get
    simp only [hread]
    rcases ht with h | h <;> simp only [h] <;> rw [if_neg hd]
  · intro hread
    unfold fdf_get
    simp only [hread]

/-- Witness for C4: `get('Label', default=5)` against a document holding
`Label 7` returns integer 7; against a document without the label it
returns 5. -/
theorem claim_C4_witness :
    fdf_get 20 [] ["Label 7"] "Label" none (.pint 5) false = .ok (.pint 7) ∧
    fdf_get 20 [] ["Other 1"] "Label" none (.pint 5) false = .ok (.pint 5) := by
  constructor
  · have h := (claim_C4 20 [] ["Label 7"] "Label" "7" (.pint 5)).1
      (by decide) (by decide) (Or.inl (by decide))
    rw [h]
    decide
  · exact (claim_C4 20 [] ["Other 1"] "Label" "7" (.pint 5)).2 (by decide)

/-! ## Claim C5 -/

/-- C5: for a stored value classified Physical (`value unit`): with
`with_unit` the pair `(value, unit)` is returned unconverted; with a
caller-given unit of a different group a `ValueError` is raised; with a
caller-given unit of the same group the value is multiplied by the
stored-to-requested conversion factor; with no unit it is converted to the
unit group's canonical default. -/
theorem claim_C5 (fuel : ℕ) (fs : FS) (primary : List String)
    (label s a u : String) (f : PyF) (d : PyVal)
    (hread : read_label fuel fs primary label = .ok (some (.rawStr s)))
    (hsplit : pySplit s = [a, u]) (hfloat : pyFloat a = some f) :
    (∀ un, fdf_get fuel fs primary label un d true = .ok (.ppair f u)) ∧
    (∀ u2 g1 g2, unit_group u = some g1 → unit_group u2 = some g2 → g1 ≠ g2 →
      fdf_get fuel fs primary label (some u2) d false = .exn .valueError) ∧
    (∀ u2 g c, unit_group u = some g → unit_group u2 = some g →
      unit_convert u u2 = .ok c →
      fdf_get fuel fs primary label (some u2) d false =
        .ok (.pfloat (pfMul f c))) ∧
    (∀ g dflt c, unit_group u = some g → unit_default g = some dflt →
      unit_convert u dflt = .ok c →
      fdf_get fuel fs primary label none d false =
        .ok (.pfloat (pfMul f c))) := by
  have htype : fdf_type (some (.rawStr s)) = .tPhys := by
    simp [fdf_type, hsplit, pyFloatOK, hfloat]
  refine ⟨?_, ?_, ?_, ?_⟩
  · intro un
    unfold fdf_get
    simp only [hread, htype]
    unfold getPhysical
    rw [hsplit]
    simp only [hfloat, if_true]
  · intro u2 g1 g2 hg1 hg2 hne
    unfold fdf_get
    simp only [hread, htype]
    unfold getPhysical
    rw [hsplit]
    simp only [hfloat, hg1, hg2, Bool.false_eq_true, if_false]
    rw [if_pos hne]
  · intro u2 g c hg1 hg2 hconv
    unfold fdf_get
    simp only [hread, htype]
    unfold getPhysical
    rw [hsplit]
    simp only [hfloat, hg1, hg2, hconv, Bool.false_eq_true, if_false]
    rw [if_neg (by simp)]
  · intro g dflt c hg hd hconv
    unfold fdf_get
    simp only [hread, htype]
    unfold getPhysical
    rw [hsplit]
    simp only [hfloat, hg, hd, hconv, Bool.false_eq_true, if_false]

/-- Witness for C5: a document storing `En 1.5 Ry`, read with `with_unit`,
with a mismatched group (`Ang`), with `unit='eV'`, and with no unit. -/
theorem claim_C5_witness :
    fdf_get 20 [] ["En 1.5 Ry"] "En" none .pnone true =
      .ok (.ppair (.fin (qmk 3 2)) "Ry") ∧
    fdf_get 20 [] ["En 1.5 Ry"] "En" (some "Ang") .pnone false =
      .exn .valueError ∧
    fdf_get 20 [] ["En 1.5 Ry"] "En" (some "eV") .pnone false =
      .ok (.pfloat (pfMul (.fin (qmk 3 2)) Ry2eV)) ∧
    fdf_get 20 [] ["En 1.5 Ry"] "En" none .pnone false =
      .ok (.pfloat (pfMul (.fin (qmk 3 2)) Ry2eV)) := by
  have h := claim_C5 20 [] ["En 1.5 Ry"] "En" "1.5 Ry" "1.5" "Ry"
    (.fin (qmk 3 2)) .pnone (by decide) (by decide) (by decide)
  exact ⟨h.1 none,
    h.2.1 "Ang" "energy" "length" (by decide) (by decide) (by decide),
    h.2.2.1 "eV" "energy" Ry2eV (by decide) (by decide) (by decide),
    h.2.2.2 "energy" "eV" Ry2eV (by decide) (by decide) (by decide)⟩

/-! ## Claim C6 -/

/-- C6 counterexample: the token `1e5` is a single token parseable by
Python's `float` but not by `int` (and contains no decimal point), yet
`_type` classifies it as Integer — so "only integer-parseable single tokens
classify as Integer" fails on the code. -/
theorem claim_C6_counterexample :
    fdf_type (some (.rawStr "1e5")) = .tInt ∧ pyInt "1e5" = none := by decide

/-- No boolean literal of the fdf logical set parses as a Python float. -/
theorem logical_not_float (x : String) (h : LOGICAL.contains x = true) :
    pyFloatOK x = false := by
  have hmem : x ∈ LOGICAL := by
    simpa using h
  fin_cases hmem <;> decide

/-- C6 amended: the classifier maps a single boolean-literal token to Bool;
a single non-boolean token accepted by Python `float` to Real when it
contains a decimal point and to Integer otherwise (this admits tokens such
as `1e5`, `inf` or `nan` that `int` rejects); exactly two tokens whose
first parses as a float to Physical; and everything else to Opaque, which
`get` returns as-is. -/
theorem claim_C6_amended (s : String) :
    (∀ t, pySplit s = [t] → LOGICAL.contains (lowerStr t) = true →
      fdf_type (some (.rawStr s)) = .tBool) ∧
    (∀ t, pySplit s = [t] → pyFloatOK (lowerStr t) = true →
      (lowerStr t).toList.contains '.' = true →
      fdf_type (some (.rawStr s)) = .tReal) ∧
    (∀ t, pySplit s = [t] → pyFloatOK (lowerStr t) = true →
      (lowerStr t).toList.contains '.' = false →
      fdf_type (some (.rawStr s)) = .tInt) ∧
    (∀ t, pySplit s = [t] → LOGICAL.contains (lowerStr t) = false →
      pyFloatOK (lowerStr t) = false →
      fdf_type (some (.rawStr s)) = .tName) ∧
    (∀ a b, pySplit s = [a, b] →
      fdf_type (some (.rawStr s)) =
        (if pyFloatOK a then .tPhys else .tName)) ∧
    ((pySplit s).length = 0 ∨ 2 < (pySplit s).length →
      fdf_type (some (.rawStr s)) = .tName) ∧
    (∀ (fuel : ℕ) (fs : FS) (primary : List String) (label : String)
      (u : Option String) (d : PyVal) (w : Bool),
      read_label fuel fs primary label = .ok (some (.rawStr s)) →
      fdf_type (some (.rawStr s)) = .tName →
      fdf_get fuel fs primary label u d w = .ok (.pstr s)) := by
  refine ⟨?_, ?_, ?_, ?_, ?_, ?_, ?_⟩
  · intro t hsplit hb
    have hbm : lowerStr t ∈ LOGICAL := by simpa using hb
    simp [fdf_type, hsplit, hbm]
  · intro t hsplit hf hdot
    have hbn : lowerStr t ∉ LOGICAL := by
      intro hmem
      have := logical_not_float (lowerStr t) (by simpa using hmem)
      rw [hf] at this
      exact absurd this (by simp)
    have hdm : '.' ∈ (lowerStr t).data := by simpa using hdot
    simp [fdf_type, hsplit, hbn, hf, hdm]
  · intro t hsplit hf hdot
    have hbn : lowerStr t ∉ LOGICAL := by
      intro hmem
      have := logical_not_float (lowerStr t) (by simpa using hmem)
      rw [hf] at this
      exact absurd this (by simp)
    have hdm : '.' ∉ (lowerStr t).data := by simpa using hdot
    simp [fdf_type, hsplit, hbn, hf, hdm]
  · intro t hsplit hb hf
    have hbn : lowerStr t ∉ LOGICAL := by simpa using hb
    simp [fdf_type, hsplit, hbn, hf]
  · intro a b hsplit
    simp [fdf_type, hsplit]
  · intro hlen
    rcases hsplit : pySplit s with _ | ⟨a, _ | ⟨b, _ | _⟩⟩
    · simp [fdf_type, hsplit]
    · rw [hsplit] at hlen
      simp at hlen
    · rw [hsplit] at hlen
      simp at hlen
    · simp [fdf_type, hsplit]
  · intro fuel fs primary label u d w hread htype
    unfold fdf_get
    simp only [hread, htype]

/-- Witness for C6 amended, one instance per clause. -/
theorem claim_C6_witness :
    fdf_type (some (.rawStr "Yes")) = .tBool ∧
    fdf_type (some (.rawStr "7.5")) = .tReal ∧
    fdf_type (some (.rawStr "703")) = .tInt ∧
    fdf_type (some (.rawStr "hello")) = .tName ∧
    fdf_type (some (.rawStr "0.5 Ry")) = (if pyFloatOK "0.5" then .tPhys else .tName) ∧
    fdf_type (some (.rawStr "a b c")) = .tName ∧
    fdf_get 20 [] ["Name free form"] "Name" none (.pint 5) false =
      .ok (.pstr "free form") := by
  refine ⟨?_, ?_, ?_, ?_, ?_, ?_, ?_⟩
  · exact (claim_C6_amended "Yes").1 "Yes" (by decide) (by decide)
  · exact (claim_C6_amended "7.5").2.1 "7.5" (by decide) (by decide) (by decide)
  · exact (claim_C6_amended "703").2.2.1 "703" (by decide) (by decide) (by decide)
  · exact (claim_C6_amended "hello").2.2.2.1 "hello" (by decide) (by decide)
      (by decide)
  · exact (claim_C6_amended "0.5 Ry").2.2.2.2.1 "0.5" "Ry" (by decide)
  · exact (claim_C6_amended "a b c").2.2.2.2.2.1 (by decide)
  · exact (claim_C6_amended "free form").2.2.2.2.2.2 20 [] ["Name free form"]
      "Name" none (.pint 5) false (by decide) (by decide)

/-! ## Claim C2 -/

/-- Setting list entries preserves the length, foldl-ed over an index
list. -/
theorem foldl_set_length (a2 : PAtom) (idx : List ℕ) :
    ∀ sp : List PAtom, (idx.foldl (fun l i => l.set i a2) sp).length =
      sp.length := by
  induction idx with
  | nil => intro sp; rfl
  | cons i is ih =>
    intro sp
    rw [List.foldl_cons, ih, List.length_set]

/-- The per-species replacement loop preserves the number of atoms of the
sparse quantity's geometry. -/
theorem replaceLoop_length (l : List (PAtom × List ℕ)) :
    ∀ (sp sp2 : List PAtom), replaceLoop sp l = .ok sp2 →
      sp2.length = sp.length := by
  induction l with
  | nil =>
    intro sp sp2 h
    unfold replaceLoop at h
    cases h
    rfl
  | cons hd tl ih =>
    intro sp sp2 h
    unfold replaceLoop at h
    split at h
    · exact ih sp sp2 h
    · split at h
      · exact ih sp sp2 h
      · split at h
        · cases h
        · dsimp only at h
          split at h
          · have := ih _ sp2 h
            rw [this, foldl_set_length]
          · cases h

/-- A hydrogen-like test atom with one orbital. -/
def atomH : PAtom := ⟨1, [qmk 1 1], qmk 1 1, "H"⟩

/-- A hydrogen-like test atom with two orbitals. -/
def atomHH : PAtom := ⟨1, [qmk 1 1, qmk 2 1], qmk 1 1, "H"⟩

/-- A carbon-like test atom with one orbital. -/
def atomC : PAtom := ⟨6, [qmk 1 1], qmk 12 1, "C"⟩
/-- C2 counterexample: a sparse quantity with 3 atoms / 3 orbitals against a
geometry with 2 atoms / 2 orbitals — atom AND orbital counts differ.  The
function emits the recoverable warning and returns false, but the matrix's
geometry is NOT left unchanged: the replacement loop still runs and
rewrites the first two atom entries. -/
theorem claim_C2_counterexample :
    SpGeom_replace_geom ⟨⟨[atomC, atomC, atomC]⟩⟩ ⟨[atomH, atomH]⟩ =
      .ok (⟨⟨[atomH, atomH, atomC]⟩⟩, false, true) ∧
    (⟨[atomH, atomH, atomC]⟩ : PGeom) ≠ ⟨[atomC, atomC, atomC]⟩ := by decide

/-- C2 amended: if the atom counts differ but the orbital counts match, the
geometry is replaced wholesale and true is returned (no warning); if atom
and orbital counts both differ, the recoverable warning is emitted and
false is returned, and while the geometry object is not replaced wholesale
(its atom count is preserved), the per-species replacement loop still runs
and may rewrite individual atom entries — or raise an IndexError when the
new geometry addresses atom slots beyond the matrix's range. -/
theorem claim_C2_amended (sp : SpGeomM) (g : PGeom) :
    (sp.geom.na ≠ g.na → sp.geom.no = g.no →
      SpGeom_replace_geom sp g = .ok (⟨g⟩, true, false)) ∧
    (sp.geom.na ≠ g.na → sp.geom.no ≠ g.no →
      ∀ sp2 ret warn, SpGeom_replace_geom sp g = .ok (sp2, ret, warn) →
        ret = false ∧ warn = true ∧ sp2.geom.na = sp.geom.na) := by
  constructor
  · intro h1 h2
    unfold SpGeom_replace_geom
    rw [if_pos ⟨h1, h2⟩]
  · intro h1 h2 sp2 ret warn h
    unfold SpGeom_replace_geom at h
    rw [if_neg (by tauto)] at h
    split at h
    · next atoms heq =>
      injection h with h'
      injection h' with hA h'
      injection h' with hB hC
      subst hA hB hC
      refine ⟨by simp [h2], by simp [h1], ?_⟩
      show atoms.length = sp.geom.atoms.length
      exact replaceLoop_length (speciesOf g) sp.geom.atoms atoms heq
    · cases h
    · cases h

/-- Witness for C2 amended at concrete inputs: wholesale replacement when
only atom counts differ, and the preserved atom count in the double
mismatch case of the counterexample. -/
theorem claim_C2_witness :
    SpGeom_replace_geom ⟨⟨[atomH, atomH]⟩⟩ ⟨[atomHH]⟩ =
      .ok (⟨⟨[atomHH]⟩⟩, true, false) ∧
    (⟨⟨[atomH, atomH, atomC]⟩⟩ : SpGeomM).geom.na =
      (⟨⟨[atomC, atomC, atomC]⟩⟩ : SpGeomM).geom.na := by
  refine ⟨(claim_C2_amended ⟨⟨[atomH, atomH]⟩⟩ ⟨[atomHH]⟩).1 (by decide)
    (by decide), ?_⟩
  exact ((claim_C2_amended ⟨⟨[atomC, atomC, atomC]⟩⟩ ⟨[atomH, atomH]⟩).2
    (by decide) (by decide) ⟨⟨[atomH, atomH, atomC]⟩⟩ false true (by decide)).2.2

/-! ## Claim C3 -/

theorem qmul_one_left (x : ℚ) : qmul (qmk 1 1) x = x := by
  rw [qmul_eq]
  have : qmk 1 1 = 1 := by rw [qmk_eq]; norm_num
  rw [this, one_mul]

theorem qadd_zero_right (x : ℚ) : qadd x (qmk 0 1) = x := by
  rw [qadd_eq]
  have : qmk 0 1 = 0 := by rw [qmk_eq]; norm_num
  rw [this, add_zero]

theorem vsmul_one (v : Vec3) : vsmul (qmk 1 1) v = v := by
  cases v
  simp [vsmul, qmul_one_left]

theorem vadd_vzero (v : Vec3) : vadd v vzero = v := by
  cases v
  simp [vadd, vzero, qadd_zero_right]

/-- A concrete diagonal test cell with lattice parameter 2. -/
def cellD : Mat3 :=
  ⟨⟨qmk 2 1, qmk 0 1, qmk 0 1⟩, ⟨qmk 0 1, qmk 2 1, qmk 0 1⟩,
   ⟨qmk 0 1, qmk 0 1, qmk 2 1⟩⟩

/-- C3 counterexample: in fractional mode with an `AtomicCoordinatesOrigin`
block present, the origin shift is ADDED to the positions untransformed
(scaled only by the fractional-mode factor 1), not skipped: the resulting
position differs from `fractional · cell`. -/
theorem claim_C3_counterexample :
    r_geometry_fdf_xyz cellD "Fractional" (qmk 1 1)
      (some ⟨qmk 1 1, qmk 1 1, qmk 1 1⟩) true
      [(⟨qmk 1 2, qmk 1 2, qmk 0 1⟩, 0)] none =
      .ok [(⟨qmk 2 1, qmk 2 1, qmk 1 1⟩, 0)] ∧
    (⟨qmk 2 1, qmk 2 1, qmk 1 1⟩ : Vec3) ≠
      dotCell ⟨qmk 1 2, qmk 1 2, qmk 0 1⟩ cellD := by decide

/-- C3 amended: when `AtomicCoordinatesFormat` selects fractional mode,
each Cartesian position equals the fractional coordinates multiplied by the
cell matrix (no scalar length factor: the scale is 1) PLUS the
`AtomicCoordinatesOrigin` shift taken as-is when present (it is added
untransformed, not skipped); with no origin block the position equals
`fractional · cell` exactly. -/
theorem claim_C3_amended (cell : Mat3) (acf : String) (latC : ℚ)
    (originLine : Option Vec3) (atms : List (Vec3 × ℤ))
    (h1 : strContains (lowerStr acf) "ang" = false)
    (h2 : strContains (lowerStr acf) "notscaledcartesianang" = false)
    (h3 : strContains (lowerStr acf) "bohr" = false)
    (h4 : strContains (lowerStr acf) "notscaledcartesianbohr" = false)
    (h5 : strContains (lowerStr acf) "scaledcartesian" = false)
    (h6 : strContains (lowerStr acf) "fractional" = true ∨
      strContains (lowerStr acf) "scaledbylatticevectors" = true)
    (hne : atms ≠ []) :
    r_geometry_fdf_xyz cell acf latC originLine true atms none =
      .ok (atms.map (fun p =>
        (vadd (dotCell p.1 cell) (originLine.getD vzero), p.2))) ∧
    (originLine = none →
      r_geometry_fdf_xyz cell acf latC originLine true atms none =
        .ok (atms.map (fun p => (dotCell p.1 cell, p.2)))) := by
  have hscale : coordScale (lowerStr acf) latC = some (qmk 1 1, true) := by
    unfold coordScale
    rw [h1, h2, h3, h4, h5]
    rcases h6 with h | h <;> simp [h]
  have hmain : r_geometry_fdf_xyz cell acf latC originLine true atms none =
      .ok (atms.map (fun p =>
        (vadd (dotCell p.1 cell) (originLine.getD vzero), p.2))) := by
    unfold r_geometry_fdf_xyz
    dsimp only
    rw [hscale]
    dsimp only
    have hlt : ¬(atms.length < atms.length) := lt_irrefl _
    rcases originLine with _ | ov <;>
      simp [hlt, hne, vsmul_one, vadd_vzero, Option.getD]
  refine ⟨hmain, ?_⟩
  intro ho
  subst ho
  rw [hmain]
  have hfe : (fun p : Vec3 × ℤ =>
      (vadd (dotCell p.1 cell) (Option.getD none vzero), p.2)) =
      (fun p : Vec3 × ℤ => (dotCell p.1 cell, p.2)) := by
    funext p
    show (vadd (dotCell p.1 cell) vzero, p.2) = _
    rw [vadd_vzero]
  rw [hfe]

/-- Witness for C3 amended: scenario 1 of the spec — a diagonal cell with
`LatticeConstant 1.0 Ang`, one atom at fractional coordinates, no origin
block. -/
theorem claim_C3_witness :
    r_geometry_fdf_xyz cellD "Fractional" (qmk 1 1) none true
      [(⟨qmk 1 2, qmk 1 2, qmk 0 1⟩, 0)] none =
      .ok [(dotCell ⟨qmk 1 2, qmk 1 2, qmk 0 1⟩ cellD, 0)] := by
  have h := (claim_C3_amended cellD "Fractional" (qmk 1 1) none
    [(⟨qmk 1 2, qmk 1 2, qmk 0 1⟩, 0)] (by decide) (by decide) (by decide)
    (by decide) (by decide) (Or.inl (by decide)) (by decide)).2 rfl
  simpa using h

/-! ## Claim C9 -/

/-- The reset routine always produces the fully popped, rewound state. -/
theorem seekAll_eq (primary : List String) (st : FdfState) :
    seekAll primary st = ⟨primary, []⟩ := by
  unfold seekAll
  induction st.parents with
  | nil => rfl
  | cons p ps ih => rw [seekAllAux, ih]

/-- C9 counterexample: a lookup that finds its value inside an included
file returns with the parent handle still stacked — the include stack is
NOT fully popped after the call; it is only cleaned by the reset at the
start of the next call. -/
theorem claim_C9_counterexample :
    (read_label_st 20 [("inc.fdf", ["Label 7"])]
      ["%include inc.fdf", "After 1"] "Label"
      ⟨["%include inc.fdf", "After 1"], []⟩).1 = .ok (some (.rawStr "7")) ∧
    (read_label_st 20 [("inc.fdf", ["Label 7"])]
      ["%include inc.fdf", "After 1"] "Label"
      ⟨["%include inc.fdf", "After 1"], []⟩).2.parents ≠ [] := by decide

/-- C9 amended: before every lookup the catch-all reset pops every stacked
handle and rewinds to the start of the primary file, so the outcome of
`_read_label` is independent of whatever handle state an earlier lookup
left behind — no persistent cursor state is observable across independent
lookups; however the stack is not guaranteed to be popped after the lookup
returns (a value found inside an included file leaves the include
stacked until the next call's reset). -/
theorem claim_C9_amended (fuel : ℕ) (fs : FS) (primary : List String)
    (label : String) (st st2 : FdfState) :
    (seekAll primary st).parents = [] ∧
    (seekAll primary st).active = primary ∧
    read_label_st fuel fs primary label st =
      read_label_st fuel fs primary label st2 := by
  refine ⟨by rw [seekAll_eq], by rw [seekAll_eq], ?_⟩
  unfold read_label_st
  rw [seekAll_eq, seekAll_eq]

/-! ## Claim C10 -/

theorem toList_mk (xs : List Char) : (String.mk xs).toList = xs := rfl

theorem tolabel_toList (s : String) :
    (tolabel s).toList = (s.toList.map Char.toLower).filter
      (fun c => !(c = '_' || c = '-' || c = '.')) := rfl

/-- A comment line (first non-space character a comment marker) can never
pass the `%endblock` test: `tolabel` keeps the marker character, which is
not `%`. -/
theorem comment_not_closer (l : String) (h : isCommentLine l = true) :
    closerP (pyStrip l) = false := by
  unfold isCommentLine at h
  unfold closerP strStartsWith
  rw [tolabel_toList]
  rcases hl : (pyStrip l).toList with _ | ⟨c, rest⟩
  · rw [hl] at h
    exact absurd h (by simp)
  · rw [hl] at h
    rw [List.map_cons, List.filter_cons]
    have hc : (c = '#' ∨ c = '!') ∨ c = ';' := by simpa using h
    rcases hc with (hc | hc) | hc <;> subst hc <;> simp [startsAux]

/-- The block scan ignores the choice of active line list beyond its
non-comment remainder. -/
theorem blockScan_dropComments (fuel : ℕ) (st : FdfState) (acc : List String) :
    blockScan fuel st acc =
      blockScan fuel ⟨st.active.dropWhile isCommentLine, st.parents⟩ acc := by
  cases fuel with
  | zero => rfl
  | succ n =>
    unfold blockScan readlineSt
    rw [List.dropWhile_idempotent]

/-- Divergence direction: when no remaining line of the active input passes
the `%endblock` test, the block scan runs out of any amount of fuel — the
Python loop never terminates. -/
theorem blockScan_no_closer (fuel : ℕ) :
    ∀ (st : FdfState) (acc : List String),
      (∀ l ∈ st.active, closerP (pyStrip l) = false) →
      blockScan fuel st acc = none := by
  induction fuel with
  | zero => intros; rfl
  | succ n ih =>
    intro st acc h
    unfold blockScan readlineSt
    rcases hd : st.active.dropWhile isCommentLine with _ | ⟨l, rest⟩
    · simp only [hd]
      have hcl : closerP (pyStrip "") = false := by decide
      rw [if_neg (by simp [hcl])]
      exact ih ⟨[], st.parents⟩ _ (by intro x hx; simp at hx)
    · simp only [hd]
      have hsuf : st.active.dropWhile isCommentLine <:+ st.active :=
        List.dropWhile_suffix _
      have hlmem : l ∈ st.active :=
        hsuf.subset (hd ▸ List.mem_cons_self l rest)
      have hcl : closerP (pyStrip l) = false := h l hlmem
      rw [if_neg (by simp [hcl])]
      apply ih ⟨rest, st.parents⟩
      intro x hx
      exact h x (hsuf.subset (hd ▸ List.mem_cons_of_mem l hx))

/-- Termination direction: when some remaining line of the active input
passes the `%endblock` test, the block scan returns within one more fuel
unit than the number of remaining lines. -/
theorem blockScan_finds_closer (n : ℕ) :
    ∀ (st : FdfState) (acc : List String),
      st.active.length ≤ n →
      (∃ l ∈ st.active, closerP (pyStrip l) = true) →
      (blockScan (n + 1) st acc).isSome = true := by
  induction n with
  | zero =>
    intro st acc hlen hex
    obtain ⟨l, hm, hc⟩ := hex
    have : st.active = [] := List.length_eq_zero.mp (Nat.le_zero.mp hlen)
    rw [this] at hm
    simp at hm
  | succ n ih =>
    intro st acc hlen hex
    unfold blockScan readlineSt
    rcases hd : st.active.dropWhile isCommentLine with _ | ⟨l, rest⟩
    · exfalso
      obtain ⟨l, hm, hc⟩ := hex
      have hcomment : isCommentLine l = true := by
        have hsplit := (List.takeWhile_append_dropWhile (p := isCommentLine)
          (l := st.active)).symm
        rw [hd, List.append_nil] at hsplit
        exact List.mem_takeWhile_imp (hsplit ▸ hm)
      rw [comment_not_closer l hcomment] at hc
      exact Bool.false_ne_true hc
    · simp only [hd, Option.getD_some]
      by_cases hcl : closerP (pyStrip l) = true
      · rw [if_pos hcl]
        rfl
      · rw [if_neg hcl]
        have hsplit := (List.takeWhile_append_dropWhile (p := isCommentLine)
          (l := st.active)).symm
        rw [hd] at hsplit
        have hlen2 : rest.length ≤ n := by
          have h1 := congrArg List.length hsplit
          rw [List.length_append] at h1
          simp only [List.length_cons] at h1
          omega
        apply ih ⟨rest, st.parents⟩ _ hlen2
        obtain ⟨x, hm, hc⟩ := hex
        rw [hsplit] at hm
        rcases List.mem_append.mp hm with hx | hx
        · exact absurd hc (by
            rw [comment_not_closer x (List.mem_takeWhile_imp hx)]
            simp)
        · rcases List.mem_cons.mp hx with hx | hx
          · rw [hx] at hc
            exact absurd hc hcl
          · exact ⟨x, hx, hc⟩

/-- A two-file include cycle: `a.fdf` includes `b.fdf` and vice versa. -/
def cycFS : FS :=
  [("a.fdf", ["%include b.fdf"]), ("b.fdf", ["%include a.fdf"])]

/-- The step-indexed lookup never returns, for any amount of fuel. -/
def lookupDiverges (fs : FS) (primary : List String) (label : String) : Prop :=
  ∀ fuel, read_label fuel fs primary label = .diverge

/-- One scanner step through an include line of the cycle. -/
theorem cyc_step_a (n : ℕ) (ps : List (List String)) :
    read_label_go (n + 1) cycFS "missing" ⟨["%include b.fdf"], ps⟩ =
      read_label_go n cycFS "missing" ⟨["%include a.fdf"], [] :: ps⟩ := rfl

/-- One scanner step through the other include line of the cycle. -/
theorem cyc_step_b (n : ℕ) (ps : List (List String)) :
    read_label_go (n + 1) cycFS "missing" ⟨["%include a.fdf"], ps⟩ =
      read_label_go n cycFS "missing" ⟨["%include b.fdf"], [] :: ps⟩ := rfl

/-- The scan of the cyclic document consumes all fuel from either file. -/
theorem cyc_go (fuel : ℕ) :
    ∀ ps : List (List String),
      (read_label_go fuel cycFS "missing" ⟨["%include b.fdf"], ps⟩).1 =
        .diverge ∧
      (read_label_go fuel cycFS "missing" ⟨["%include a.fdf"], ps⟩).1 =
        .diverge := by
  induction fuel with
  | zero => intro ps; exact ⟨rfl, rfl⟩
  | succ n ih =>
    intro ps
    constructor
    · rw [cyc_step_a]
      exact (ih ([] :: ps)).2
    · rw [cyc_step_b]
      exact (ih ([] :: ps)).1

/-- C10 counterexample: a document whose include graph is cyclic contains
no block opener at all (so vacuously every opened block has a closer), yet
the lookup diverges — "for every document in which each opened block has a
closer line the lookup terminates" is false on the code. -/
theorem claim_C10_counterexample :
    lookupDiverges cycFS ["%include b.fdf"] "Missing" ∧
    cycFS.all (fun e => e.2.all
      (fun l => (pySplit l).headD "" != "%block")) = true := by
  refine ⟨?_, by decide⟩
  intro fuel
  show (read_label_go fuel cycFS (tolabel "Missing")
    (seekAll ["%include b.fdf"] ⟨["%include b.fdf"], []⟩)).1 = .diverge
  exact (cyc_go fuel []).1

/-- C10 amended: the block-body scan of `_read_label`, run on the active
input, terminates exactly when some remaining line of the active input
normalises (whole line, lower-cased, `_`/`-`/`.` stripped) to a string with
prefix `%endblock`; a matched block without such a closer line loops
forever at end of file instead of returning or raising.  (Termination of a
whole lookup additionally requires an acyclic include/pipe structure: the
counterexample shows an include cycle diverging with no blocks at all.) -/
theorem claim_C10_amended (st : FdfState) (acc : List String) :
    ((∃ l ∈ st.active, closerP (pyStrip l) = true) →
      (blockScan (st.active.length + 1) st acc).isSome = true) ∧
    ((∀ l ∈ st.active, closerP (pyStrip l) = false) →
      ∀ fuel, blockScan fuel st acc = none) := by
  constructor
  · intro hex
    exact blockScan_finds_closer st.active.length st acc (le_refl _) hex
  · intro h fuel
    exact blockScan_no_closer fuel st acc h

/-- Witness for C10 amended: a block body with a closer terminates with the
body; one without a closer exhausts any fuel (sampled at 7). -/
theorem claim_C10_witness :
    (blockScan 3 ⟨["x 1", "%endblock"], []⟩ []).isSome = true ∧
    blockScan 7 ⟨["x 1", "y 2"], []⟩ [] = none := by
  constructor
  · exact (claim_C10_amended ⟨["x 1", "%endblock"], []⟩ []).1
      ⟨"%endblock", by decide, by decide⟩
  · exact (claim_C10_amended ⟨["x 1", "y 2"], []⟩ []).2 (by decide) 7
